import Mathlib

/-!
Verification of the meeting-intake pipeline (`pipeline.py`, `sago_cal/main.py`)
and the external-tool invocation layer (`lp_brief/tavily_toolbox.py`).

The Python source is shallowly embedded: dictionaries become structures,
per-meeting loops become structural recursion with explicit accumulation,
exceptions become `Except`, and the mutable `processed_ids` set threads
through as explicit state.  Python string operations (`str.split`,
`str.strip`, `str.lower`, `str.capitalize`, substring membership) are
re-implemented over `List Char` with the same semantics, because the
corresponding core-library functions do not reduce inside the kernel.
-/

namespace Sago

/-! ### Python string primitives -/

/-- Worker for `py_split`: scans the character list left to right, emitting a
token whenever `sep` occurs as a prefix of the remainder, exactly like
Python's `str.split(sep)` for a non-empty separator.  `fuel` bounds the
recursion; `py_split` supplies enough fuel that it is never exhausted for a
non-empty separator. -/
def split_on_aux (sep : List Char) : Nat → List Char → List Char → List (List Char)
  | 0, cs, acc => [acc.reverse ++ cs]
  | fuel + 1, cs, acc =>
    match cs with
    | [] => [acc.reverse]
    | c :: rest =>
      if sep.isPrefixOf (c :: rest) then
        acc.reverse :: split_on_aux sep fuel (List.drop sep.length (c :: rest)) []
      else
        split_on_aux sep fuel rest (c :: acc)

/-- Python `s.split(sep)` for a non-empty separator. -/
def py_split (s sep : String) : List String :=
  (split_on_aux sep.data (s.data.length + 1) s.data []).map String.mk

/-- Python `s.strip()`: remove leading and trailing whitespace. -/
def py_strip (s : String) : String :=
  String.mk (((s.data.dropWhile Char.isWhitespace).reverse.dropWhile Char.isWhitespace).reverse)

/-- Python `s.lower()`. -/
def py_lower (s : String) : String :=
  String.mk (s.data.map Char.toLower)

/-- Python `s.capitalize()`: first character uppercased, the rest lowercased. -/
def py_capitalize (s : String) : String :=
  match s.data with
  | [] => ""
  | c :: rest => String.mk (c.toUpper :: rest.map Char.toLower)

/-- Python `pat in s` for a non-empty pattern `pat`: the split on `pat` has at
least two parts exactly when `pat` occurs in `s`. -/
def py_contains (s pat : String) : Bool :=
  match py_split s pat with
  | _ :: _ :: _ => true
  | _ => false

/-- Python `str(x)` applied to an `Optional[str]`: `None` prints as "None". -/
def py_str_opt : Option String → String
  | none => "None"
  | some s => s

/-! ### Calendar data model (`sago_cal/main.py`) -/

/-- One attendee record as built by `get_all_participants`:
`{"email": ..., "name": ..., "response": ...}`. -/
structure Participant where
  email : String
  name : String
  response : String
deriving Repr, DecidableEq

/-- One normalized meeting record as built by `extract_meeting_data`:
the fields the pipeline reads. -/
structure Meeting where
  event_id : String
  summary : String
  participants : List Participant
deriving Repr, DecidableEq

/-- `TALIPOT_DOMAIN` from `sago_cal/main.py`. -/
def TALIPOT_DOMAIN : String := "talipot.com"

/-- `p["email"].split("@")[-1].lower()` from `get_external_participants`. -/
def email_domain (email : String) : String :=
  py_lower ((py_split email "@").getLastD "")

/-- The participant-classification loop of `get_external_participants`,
as structural recursion: each participant goes to the `talipot` list when
its email domain equals `TALIPOT_DOMAIN`, otherwise to `external`,
preserving order. -/
def split_participants : List Participant → List Participant × List Participant
  | [] => ([], [])
  | p :: rest =>
    let r := split_participants rest
    if email_domain p.email = TALIPOT_DOMAIN then (p :: r.1, r.2) else (r.1, p :: r.2)

/-- `get_external_participants(meeting_data)` from `sago_cal/main.py`:
returns `(talipot, external)`. -/
def get_external_participants (meeting_data : Meeting) : List Participant × List Participant :=
  split_participants meeting_data.participants

/-! ### Target resolution (`pipeline.py`, `derive_research_target`) -/

/-- The fixed separator list tried by `derive_research_target`. -/
def title_separators : List String := [" x ", " <> ", " — ", " - ", " with ", " : "]

/-- `part.strip().split("—")[0].split("-")[0].strip()`. -/
def clean_part (part : String) : String :=
  py_strip ((py_split ((py_split (py_strip part) "—").headD "") "-").headD "")

/-- The inner loop over the segments of one separator's split: return the
first cleaned segment whose lowercase form contains neither "talipot" nor
"sago" and whose length exceeds 2. -/
def find_in_parts (parts : List String) : Option String :=
  parts.findSome? fun part =>
    let clean := clean_part part
    let low := py_lower clean
    if !py_contains low "talipot" && !py_contains low "sago" && decide (2 < clean.length) then
      some clean
    else
      none

/-- The separator loop of `derive_research_target`: for each separator in
order, split the title; when the split has at least two parts, scan its
segments; with no qualifying segment the loop falls through to the next
separator (there is no `break` in the source). -/
def sep_scan (title : String) : Option String :=
  title_separators.findSome? fun sep =>
    let parts := py_split title sep
    if 2 ≤ parts.length then find_in_parts parts else none

/-- `derive_research_target(meeting_data, external_participants)` from
`pipeline.py`. -/
def derive_research_target (meeting_data : Meeting) (external_participants : List Participant) :
    String :=
  let title := meeting_data.summary
  match sep_scan title with
  | some clean => clean
  | none =>
    match external_participants with
    | p :: _ =>
      let domain := (py_split p.email "@").getLastD ""
      py_capitalize ((py_split domain ".").headD "")
    | [] => title

/-! ### Batch processing (`pipeline.py`, `process_meetings`) -/

/-- The outcome of `run_brief_for_meeting` for one meeting: `Except.error`
models an exception escaping the agent invocation, `Except.ok` the final
response text.  The pipeline theorems are parametric in this function. -/
def Agent : Type := Meeting → Except String String

/-- `process_meetings(meetings)` from `pipeline.py`, with the per-meeting
loop as structural recursion.  The first component is the `processed_ids`
set (as the list of ids added, in order); the second records the ids of the
meetings for which the agent was actually invoked (the dispatch trace),
so that failure isolation is observable.  A meeting with no talipot or no
external participants is skipped before dispatch; an agent exception is
caught at the per-meeting boundary and the loop continues without marking
the meeting processed. -/
def process_meetings (agent : Agent) : List Meeting → List String × List String
  | [] => ([], [])
  | meeting :: rest =>
    let tp := get_external_participants meeting
    if tp.1.isEmpty then
      process_meetings agent rest
    else if tp.2.isEmpty then
      process_meetings agent rest
    else
      let later := process_meetings agent rest
      match agent meeting with
      | .ok _ => (meeting.event_id :: later.1, meeting.event_id :: later.2)
      | .error _ => (later.1, meeting.event_id :: later.2)

/-- A meeting survives both skip checks of `process_meetings`. -/
def passes_filters (m : Meeting) : Bool :=
  !(get_external_participants m).1.isEmpty && !(get_external_participants m).2.isEmpty

/-- The agent invocation for `m` completes without an exception. -/
def agent_ok (agent : Agent) (m : Meeting) : Bool :=
  match agent m with
  | .ok _ => true
  | .error _ => false

/-! ### Watch loop (`pipeline.py`, `run_watch`) -/

/-- Observable record of one cycle of the watch loop: the event ids counted
as new this cycle, and the ids dispatched to the agent this cycle. -/
structure CycleLog where
  newIds : List String
  dispatched : List String
deriving Repr, DecidableEq

/-- One iteration of the `while True` loop in `run_watch`: filter the scan
result against `processed_ids`, process the new meetings, and merge the
returned ids into `processed_ids`.  (When `new_meetings` is empty the source
skips the call; `process_meetings` of `[]` contributes nothing, so the merge
is written unconditionally.) -/
def watch_cycle (agent : Agent) (processed_ids : List String) (meetings : List Meeting) :
    List String × CycleLog :=
  let new_meetings := meetings.filter fun m => !processed_ids.contains m.event_id
  let result := process_meetings agent new_meetings
  (processed_ids ++ result.1, ⟨new_meetings.map Meeting.event_id, result.2⟩)

/-- `run_watch` unrolled over an explicit list of scan results, one per
cycle, starting from the given `processed_ids` state (the source starts from
the empty set and loops forever; any finite prefix of cycles is an instance
of this function). -/
def run_watch (agent : Agent) (processed_ids : List String) :
    List (List Meeting) → List String × List CycleLog
  | [] => (processed_ids, [])
  | scan :: later =>
    let step := watch_cycle agent processed_ids scan
    let rest := run_watch agent step.1 later
    (rest.1, step.2 :: rest.2)

/-! ### Tool invocation layer (`lp_brief/tavily_toolbox.py`) -/

/-- The exception types raised by the Tavily client, as imported by the
module, plus a catch-all for any other exception.  Each carries `str(e)`. -/
inductive TavilyExc where
  | badRequest (msg : String)
  | invalidAPIKey (msg : String)
  | missingAPIKey (msg : String)
  | usageLimit (msg : String)
  | other (msg : String)
deriving Repr, DecidableEq

/-- `str(error)` for a Tavily exception. -/
def TavilyExc.msg : TavilyExc → String
  | .badRequest m | .invalidAPIKey m | .missingAPIKey m | .usageLimit m | .other m => m

/-- Membership in the tuple `(BadRequestError, InvalidAPIKeyError,
UsageLimitExceededError)` caught by the first `except` clause of every
operation. -/
def TavilyExc.recognized : TavilyExc → Bool
  | .badRequest _ | .invalidAPIKey _ | .usageLimit _ => true
  | _ => false

/-- `TavilyResult` dataclass: `success`, `data` (markdown or JSON string),
`error` (defaults to `None`). -/
structure TavilyResult where
  success : Bool
  data : String
  error : Option String := none
deriving Repr, DecidableEq

/-- One entry of `response["results"]` in a search response; all fields are
read with `.get` defaults.  The source formats `score` (a float) with two
decimals; it is carried here in hundredths. -/
structure SearchItem where
  title : Option String
  url : Option String
  content : Option String
  score : Option Int
deriving Repr, DecidableEq

/-- The search response dictionary fields read by the formatter. -/
structure SearchResponse where
  answer : Option String
  results : List SearchItem
deriving Repr, DecidableEq

/-- One entry of a research response's `sources` list: a dict or a string. -/
inductive ResearchSource where
  | dict (title url : Option String)
  | plain (s : String)
deriving Repr, DecidableEq

/-- A research response: a dict (with the keys the formatter probes, plus
the raw JSON serialization used by the fallback branch) or a plain string. -/
inductive ResearchResponse where
  | dict (report content answer : Option String) (sources : List ResearchSource) (raw_json : String)
  | str (s : String)
deriving Repr, DecidableEq

/-- One entry of an extraction response's `results` list. -/
structure ExtractItem where
  url : Option String
  raw_content : Option String
deriving Repr, DecidableEq

/-- The extraction response dictionary. -/
structure ExtractResponse where
  results : List ExtractItem
deriving Repr, DecidableEq

/-- One discovered page in a map response: a dict or a bare URL string. -/
inductive MapPage where
  | dict (url title : Option String)
  | plain (s : String)
deriving Repr, DecidableEq

/-- `response.get("urls", response.get("pages", []))`: a flat list or a
category-keyed dict. -/
inductive MapPages where
  | list (ps : List MapPage)
  | dict (groups : List (String × List String))
deriving Repr, DecidableEq

/-- One entry of a crawl response's `data` list: a dict of key/values or a
plain item. -/
inductive CrawlItem where
  | dict (kvs : List (String × String))
  | plain (s : String)
deriving Repr, DecidableEq

/-- The `data` field of a crawl response: a list or something else
(rendered with `str`). -/
inductive CrawlData where
  | list (items : List CrawlItem)
  | scalar (s : String)
deriving Repr, DecidableEq

/-- One entry of a crawl response's `results` list. -/
structure CrawlPage where
  url : Option String
  content : Option String
  raw_content : Option String
deriving Repr, DecidableEq

/-- A crawl response: a dict with `data`, a dict with `results`, some other
dict (dumped as JSON), or a non-dict value (rendered with `str`). -/
inductive CrawlResponse where
  | withData (d : CrawlData)
  | withResults (results : List CrawlPage)
  | otherDict (raw_json : String)
  | nonDict (s : String)
deriving Repr, DecidableEq

/-- Render a score held in hundredths the way `f"{score:.2f}"` renders the
corresponding float. -/
def format_hundredths (n : Int) : String :=
  let sign := if n < 0 then "-" else ""
  let a := n.natAbs
  let r := a % 100
  sign ++ toString (a / 100) ++ "." ++ (if r < 10 then "0" else "") ++ toString r

/-- `_format_search_results(query, response)`. -/
def format_search_results (query : String) (response : SearchResponse) : String :=
  let lines := ["## Web Search Results", "**Query:** " ++ query, ""]
  let lines := if (response.answer.getD "") ≠ "" then
      lines ++ ["### Summary", (response.answer.getD ""), ""]
    else lines
  let results := response.results
  let lines := if results.isEmpty then lines else
    lines ++ ["### Sources", ""] ++ results.enum.foldl (fun acc p =>
      acc ++ ["#### " ++ toString (p.1 + 1) ++ ". " ++ p.2.title.getD "Untitled",
        "**URL:** " ++ p.2.url.getD "",
        "**Relevance:** " ++ format_hundredths (p.2.score.getD 0),
        "", p.2.content.getD "", "", "---", ""]) []
  String.intercalate "\n" lines

/-- `_format_research_report(query, response)`. -/
def format_research_report (query : String) (response : ResearchResponse) : String :=
  let lines := ["## Deep Research Report", "**Research Question:** " ++ query, ""]
  let lines := match response with
    | .dict (some report) _ _ _ _ => lines ++ [report]
    | .dict none (some content) _ _ _ => lines ++ [content]
    | .dict none none (some answer) _ _ => lines ++ [answer]
    | .dict none none none _ raw => lines ++ ["### Research Findings", "```json", raw, "```"]
    | .str s => lines ++ [s]
  let sources := match response with
    | .dict _ _ _ srcs _ => srcs
    | .str _ => []
  let lines := if sources.isEmpty then lines else
    lines ++ ["", "### Sources Consulted", ""] ++ sources.map fun src =>
      match src with
      | .dict t u => "- [" ++ t.getD "Source" ++ "](" ++ u.getD "" ++ ")"
      | .plain s => "- " ++ s
  String.intercalate "\n" lines

/-- `_format_extraction_results(urls, response, query)`. -/
def format_extraction_results (urls : List String) (response : ExtractResponse)
    (query : Option String) : String :=
  let lines := ["## Content Extraction Results", "**URLs Processed:** " ++ toString urls.length]
  let lines := if (query.getD "") ≠ "" then lines ++ ["**Focus Query:** " ++ query.getD ""]
    else lines
  let lines := lines ++ ["", "---", ""]
  let results := response.results
  let lines := if results.isEmpty then
      lines ++ ["_No content could be extracted from the provided URLs._"]
    else
      results.foldl (fun acc result =>
        let rc := result.raw_content.getD ""
        acc ++ ["### " ++ result.url.getD "Unknown URL", "",
          if rc ≠ "" then rc else "_No content extracted_", "", "---", ""]) lines
  String.intercalate "\n" lines

/-- `_format_site_map(url, response)`. -/
def format_site_map (url : String) (response : MapPages) : String :=
  let lines := ["## Site Map", "**Domain:** " ++ url, "", "### Discovered Pages", ""]
  let lines := match response with
    | .list ps => lines ++ ps.map fun page =>
        match page with
        | .dict pu pt => "- [" ++ pt.getD "Untitled" ++ "](" ++ pu.getD "" ++ ")"
        | .plain p => "- " ++ p
    | .dict groups => lines ++ groups.foldl (fun acc g =>
        acc ++ ["#### " ++ g.1] ++ g.2.map (fun u2 => "  - " ++ u2) ++ [""]) []
  let pagesEmpty := match response with
    | .list ps => ps.isEmpty
    | .dict gs => gs.isEmpty
  let lines := if pagesEmpty then
      lines ++ ["_No pages discovered. The site may block crawling._"]
    else lines
  String.intercalate "\n" lines

/-- `_format_crawl_results(url, instructions, response)`. -/
def format_crawl_results (url instr : String) (response : CrawlResponse) : String :=
  let lines := ["## Site Crawl Results", "**Starting URL:** " ++ url,
    "**Instructions:** " ++ instr, "", "---", ""]
  let lines := match response with
    | .withData (.list items) =>
      lines ++ ["### Extracted Data", ""] ++ items.foldl (fun acc item =>
        match item with
        | .dict kvs => acc ++ kvs.map (fun kv => "**" ++ kv.1 ++ ":** " ++ kv.2) ++ [""]
        | .plain s => acc ++ ["- " ++ s]) []
    | .withData (.scalar s) => lines ++ [s]
    | .withResults results => results.foldl (fun acc result =>
        let content := match result.content with
          | some c => c
          | none => result.raw_content.getD ""
        acc ++ ["### " ++ result.url.getD "", "", content, "", "---", ""]) lines
    | .otherDict raw => lines ++ ["### Raw Response", "```json", raw, "```"]
    | .nonDict s => lines ++ [s]
  String.intercalate "\n" lines

/-- `TavilyToolbox._handle_error(method, error)`: classify a recognized
Tavily exception, checked in the source's `isinstance` order; the final
branch is the generic fallback. -/
def handle_error (method : String) (error : TavilyExc) : TavilyResult :=
  match error with
  | .usageLimit _ =>
    ⟨false, "", some ("Rate limit exceeded in " ++ method ++ ". Please wait before retrying.")⟩
  | .invalidAPIKey _ =>
    ⟨false, "", some ("Authentication failed in " ++ method ++ ". Check your TAVILY_API_KEY.")⟩
  | .badRequest m =>
    ⟨false, "", some ("Bad request in " ++ method ++ ": " ++ m)⟩
  | e =>
    ⟨false, "", some ("Tavily API error in " ++ method ++ ": " ++ e.msg)⟩

/-- The toolbox instance; it holds the resolved API key (`self._api_key`).
The network client is modelled at each operation by the provider outcome
passed in. -/
structure TavilyToolbox where
  api_key : String
deriving Repr, DecidableEq

/-- Python `a or b` on optional strings: the first operand wins when it is
truthy (present and non-empty). -/
def py_or_str (a b : Option String) : Option String :=
  match a with
  | some s => if s ≠ "" then some s else b
  | none => b

/-- The `ValueError` message raised by `TavilyToolbox.__init__`. -/
def api_key_error_msg : String :=
  "Tavily API key required. Set TAVILY_API_KEY environment variable or pass api_key parameter."

/-- `TavilyToolbox.__init__(api_key)`: resolve
`api_key or os.getenv("TAVILY_API_KEY")` and raise `ValueError` when the
result is falsy.  `env_key` is the environment variable's value (`none`
when unset). -/
def TavilyToolbox.init (api_key env_key : Option String) : Except String TavilyToolbox :=
  match py_or_str api_key env_key with
  | some s => if s = "" then .error api_key_error_msg else .ok ⟨s⟩
  | none => .error api_key_error_msg

/-- `TavilyToolbox.web_search`: one provider call, success formatted as
markdown; the recognized exception tuple goes to `_handle_error`; any other
exception becomes the `Unexpected error` result. -/
def TavilyToolbox.web_search (_self : TavilyToolbox) (query : String) (_depth : String)
    (_max_results : Nat) (_include_domains _exclude_domains : Option (List String))
    (provider : Except TavilyExc SearchResponse) : TavilyResult :=
  match provider with
  | .ok response => ⟨true, format_search_results query response, none⟩
  | .error (.badRequest m) => handle_error "web_search" (.badRequest m)
  | .error (.invalidAPIKey m) => handle_error "web_search" (.invalidAPIKey m)
  | .error (.usageLimit m) => handle_error "web_search" (.usageLimit m)
  | .error e => ⟨false, "", some ("Unexpected error in web_search: " ++ e.msg)⟩

/-- `TavilyToolbox.deep_research`. -/
def TavilyToolbox.deep_research (_self : TavilyToolbox) (query : String)
    (_max_depth _max_breadth : Nat)
    (provider : Except TavilyExc ResearchResponse) : TavilyResult :=
  match provider with
  | .ok response => ⟨true, format_research_report query response, none⟩
  | .error (.badRequest m) => handle_error "deep_research" (.badRequest m)
  | .error (.invalidAPIKey m) => handle_error "deep_research" (.invalidAPIKey m)
  | .error (.usageLimit m) => handle_error "deep_research" (.usageLimit m)
  | .error e => ⟨false, "", some ("Unexpected error in deep_research: " ++ e.msg)⟩

/-- `TavilyToolbox.extract_content`: fails immediately on an empty URL list
without touching the provider; otherwise truncates to 10 URLs and issues one
provider call on the truncated list. -/
def TavilyToolbox.extract_content (_self : TavilyToolbox) (urls : List String)
    (query : Option String)
    (provider : List String → Except TavilyExc ExtractResponse) : TavilyResult :=
  if urls.isEmpty then
    ⟨false, "", some "No URLs provided for extraction"⟩
  else
    let urls := urls.take 10
    match provider urls with
    | .ok response => ⟨true, format_extraction_results urls response query, none⟩
    | .error (.badRequest m) => handle_error "extract_content" (.badRequest m)
    | .error (.invalidAPIKey m) => handle_error "extract_content" (.invalidAPIKey m)
    | .error (.usageLimit m) => handle_error "extract_content" (.usageLimit m)
    | .error e => ⟨false, "", some ("Unexpected error in extract_content: " ++ e.msg)⟩

/-- `TavilyToolbox.map_site`. -/
def TavilyToolbox.map_site (_self : TavilyToolbox) (url : String) (_max_depth : Nat)
    (provider : Except TavilyExc MapPages) : TavilyResult :=
  match provider with
  | .ok response => ⟨true, format_site_map url response, none⟩
  | .error (.badRequest m) => handle_error "map_site" (.badRequest m)
  | .error (.invalidAPIKey m) => handle_error "map_site" (.invalidAPIKey m)
  | .error (.usageLimit m) => handle_error "map_site" (.usageLimit m)
  | .error e => ⟨false, "", some ("Unexpected error in map_site: " ++ e.msg)⟩

/-- `TavilyToolbox.crawl_site`. -/
def TavilyToolbox.crawl_site (_self : TavilyToolbox) (url instr : String) (_max_pages : Nat)
    (provider : Except TavilyExc CrawlResponse) : TavilyResult :=
  match provider with
  | .ok response => ⟨true, format_crawl_results url instr response, none⟩
  | .error (.badRequest m) => handle_error "crawl_site" (.badRequest m)
  | .error (.invalidAPIKey m) => handle_error "crawl_site" (.invalidAPIKey m)
  | .error (.usageLimit m) => handle_error "crawl_site" (.usageLimit m)
  | .error e => ⟨false, "", some ("Unexpected error in crawl_site: " ++ e.msg)⟩

/-- `_get_toolbox()`: return the lazily initialized module-level instance,
constructing it with no `api_key` argument on first use.  `tb_state` is the
current value of the `_toolbox` global; a raised `ValueError` propagates as
`Except.error`. -/
def get_toolbox (tb_state : Option TavilyToolbox) (env_key : Option String) :
    Except String TavilyToolbox :=
  match tb_state with
  | some tb => .ok tb
  | none => TavilyToolbox.init none env_key

/-- `tavily_web_search(query, depth, max_results)`: module-level ADK tool
wrapper.  An exception from `_get_toolbox` propagates; otherwise the
operation's result is rendered as a string. -/
def tavily_web_search (tb_state : Option TavilyToolbox) (env_key : Option String)
    (query depth : String) (max_results : Nat)
    (provider : Except TavilyExc SearchResponse) : Except String String :=
  match get_toolbox tb_state env_key with
  | .error e => .error e
  | .ok tb =>
    let result := tb.web_search query depth max_results none none provider
    .ok (if result.success then result.data else "**Search Error:** " ++ py_str_opt result.error)

/-- `tavily_deep_research(query)`. -/
def tavily_deep_research (tb_state : Option TavilyToolbox) (env_key : Option String)
    (query : String) (provider : Except TavilyExc ResearchResponse) : Except String String :=
  match get_toolbox tb_state env_key with
  | .error e => .error e
  | .ok tb =>
    let result := tb.deep_research query 3 3 provider
    .ok (if result.success then result.data else "**Research Error:** " ++ py_str_opt result.error)

/-- `tavily_extract_content(urls, query)`. -/
def tavily_extract_content (tb_state : Option TavilyToolbox) (env_key : Option String)
    (urls : List String) (query : Option String)
    (provider : List String → Except TavilyExc ExtractResponse) : Except String String :=
  match get_toolbox tb_state env_key with
  | .error e => .error e
  | .ok tb =>
    let result := tb.extract_content urls query provider
    .ok (if result.success then result.data
      else "**Extraction Error:** " ++ py_str_opt result.error)

/-- `tavily_map_site(url)`. -/
def tavily_map_site (tb_state : Option TavilyToolbox) (env_key : Option String)
    (url : String) (provider : Except TavilyExc MapPages) : Except String String :=
  match get_toolbox tb_state env_key with
  | .error e => .error e
  | .ok tb =>
    let result := tb.map_site url 2 provider
    .ok (if result.success then result.data else "**Mapping Error:** " ++ py_str_opt result.error)

/-- `tavily_crawl_site(url, instructions)`. -/
def tavily_crawl_site (tb_state : Option TavilyToolbox) (env_key : Option String)
    (url instr : String) (provider : Except TavilyExc CrawlResponse) : Except String String :=
  match get_toolbox tb_state env_key with
  | .error e => .error e
  | .ok tb =>
    let result := tb.crawl_site url instr 10 provider
    .ok (if result.success then result.data else "**Crawl Error:** " ++ py_str_opt result.error)

/-! ### Spec-side definitions used for refinement comparisons -/

/-- The result the spec demands for an unrecognized exception in an
operation: `{success:false, error: "Unexpected error in <operation>:
<message>"}` (spec §4.4(d)). -/
def spec_unexpected_result (operation msg : String) : TavilyResult :=
  ⟨false, "", some ("Unexpected error in " ++ operation ++ ": " ++ msg)⟩

/-- The resolution algorithm exactly as the claim states it: take the FIRST
separator that produces two or more segments, examine only that separator's
segments, and when none of them qualifies fall back directly to the
email-domain rule without trying later separators. -/
def resolve_claimed (title : String) (external_participants : List Participant) : String :=
  match (title_separators.findSome? fun sep =>
      let parts := py_split title sep
      if 2 ≤ parts.length then some parts else none) with
  | some parts =>
    match find_in_parts parts with
    | some clean => clean
    | none =>
      match external_participants with
      | p :: _ => py_capitalize ((py_split ((py_split p.email "@").getLastD "") ".").headD "")
      | [] => title
  | none =>
    match external_participants with
    | p :: _ => py_capitalize ((py_split ((py_split p.email "@").getLastD "") ".").headD "")
    | [] => title

/-- The amended separator scan, written as the amended claim reads: walk the
separator list in order; a separator producing two or more segments has its
segments examined, and when no segment of that split qualifies the NEXT
separator is tried; only after the whole list is exhausted does resolution
fall back. -/
def scan_separators (title : String) : List String → Option String
  | [] => none
  | sep :: rest =>
    let parts := py_split title sep
    if 2 ≤ parts.length then
      match find_in_parts parts with
      | some clean => some clean
      | none => scan_separators title rest
    else
      scan_separators title rest

/-- Resolution as described by the amended claim: the fall-through separator
scan, then the email-domain rule, then the raw title. -/
def resolve_amended (title : String) (external_participants : List Participant) : String :=
  match scan_separators title title_separators with
  | some clean => clean
  | none =>
    match external_participants with
    | p :: _ => py_capitalize ((py_split ((py_split p.email "@").getLastD "") ".").headD "")
    | [] => title

/-! ### Concrete sample data for witnesses and counterexamples -/

/-- A talipot.com attendee. -/
def pTal : Participant := ⟨"amy@talipot.com", "Amy", "accepted"⟩

/-- An external attendee. -/
def pExt : Participant := ⟨"bob@foo.com", "Bob", "accepted"⟩

/-- Sample meeting 1: one talipot and one external participant. -/
def mtg1 : Meeting := ⟨"e1", "M1", [pTal, pExt]⟩

/-- Sample meeting 2; the failing agent raises on it. -/
def mtg2 : Meeting := ⟨"e2", "M2", [pTal, pExt]⟩

/-- Sample meeting 3. -/
def mtg3 : Meeting := ⟨"e3", "M3", [pTal, pExt]⟩

/-- A meeting with no talipot.com participants: skipped before dispatch. -/
def mtgNoTal : Meeting := ⟨"e9", "Externals only", [pExt]⟩

/-- Agent that raises exactly on `mtg2` and succeeds elsewhere. -/
def failing_agent : Agent := fun m => if m.event_id = "e2" then .error "boom" else .ok "done"

/-- Agent that always succeeds. -/
def ok_agent : Agent := fun _ => .ok "done"

/-- A constructed toolbox instance. -/
def tbW : TavilyToolbox := ⟨"tvly-key"⟩

/-! ### Supporting lemmas -/

/-- Closed form of `process_meetings`: the processed set is the ids of the
meetings that pass both skip checks and whose agent invocation succeeds; the
dispatch trace is the ids of the meetings that pass both skip checks. -/
theorem process_meetings_spec (agent : Agent) (l : List Meeting) :
    process_meetings agent l =
      ((l.filter fun m => passes_filters m && agent_ok agent m).map Meeting.event_id,
       (l.filter passes_filters).map Meeting.event_id) := by
  induction l with
  | nil => rfl
  | cons m rest ih =>
    cases h1 : (get_external_participants m).1.isEmpty with
    | true => simp [process_meetings, passes_filters, h1, ih, List.filter_cons]
    | false =>
      cases h2 : (get_external_participants m).2.isEmpty with
      | true => simp [process_meetings, passes_filters, h1, h2, ih, List.filter_cons]
      | false =>
        cases ha : agent m with
        | ok v =>
          simp [process_meetings, passes_filters, agent_ok, h1, h2, ha, ih, List.filter_cons]
        | error e =>
          simp [process_meetings, passes_filters, agent_ok, h1, h2, ha, ih, List.filter_cons]

/-- Closed form of one watch cycle. -/
theorem watch_cycle_spec (agent : Agent) (processed : List String) (meetings : List Meeting) :
    watch_cycle agent processed meetings =
      (processed ++ ((meetings.filter fun m => !processed.contains m.event_id).filter
          fun m => passes_filters m && agent_ok agent m).map Meeting.event_id,
       ⟨(meetings.filter fun m => !processed.contains m.event_id).map Meeting.event_id,
        ((meetings.filter fun m => !processed.contains m.event_id).filter
          passes_filters).map Meeting.event_id⟩) := by
  simp [watch_cycle, process_meetings_spec]

/-- An id already in `processed_ids` is filtered out of every later cycle's
new-meeting list and hence never dispatched again. -/
theorem run_watch_no_redispatch (agent : Agent) (eid : String) :
    ∀ (scans : List (List Meeting)) (processed : List String), eid ∈ processed →
      ∀ log ∈ (run_watch agent processed scans).2,
        eid ∉ log.newIds ∧ eid ∉ log.dispatched := by
  intro scans
  induction scans with
  | nil =>
    intro processed _ log hlog
    simp [run_watch] at hlog
  | cons scan later ih =>
    intro processed hmem log hlog
    simp only [run_watch, List.mem_cons] at hlog
    rcases hlog with rfl | hlog
    · constructor
      · intro hd
        rw [watch_cycle_spec] at hd
        simp only [List.mem_map, List.mem_filter] at hd
        obtain ⟨m', ⟨_, hfr⟩, hid⟩ := hd
        rw [hid] at hfr
        simp at hfr
        exact hfr hmem
      · intro hd
        rw [watch_cycle_spec] at hd
        simp only [List.mem_map, List.mem_filter] at hd
        obtain ⟨m', ⟨⟨_, hfr⟩, _⟩, hid⟩ := hd
        rw [hid] at hfr
        simp at hfr
        exact hfr hmem
    · refine ih _ ?_ log hlog
      rw [watch_cycle_spec]
      exact List.mem_append_left _ hmem

/-- When every meeting of a scan either is already processed or passes the
filters and succeeds, the cycle after it sees nothing new and dispatches
nothing on the identical scan. -/
theorem second_cycle_no_dispatch (agent : Agent) (processed : List String)
    (meetings : List Meeting)
    (hok : ∀ m ∈ meetings, m.event_id ∉ processed →
      passes_filters m = true ∧ agent_ok agent m = true) :
    (watch_cycle agent (watch_cycle agent processed meetings).1 meetings).2 = ⟨[], []⟩ := by
  have hall : ∀ m ∈ meetings, m.event_id ∈ (watch_cycle agent processed meetings).1 := by
    intro m hm
    rw [watch_cycle_spec]
    by_cases hp : m.event_id ∈ processed
    · exact List.mem_append_left _ hp
    · refine List.mem_append_right _ ?_
      refine List.mem_map.mpr ⟨m, ?_, rfl⟩
      refine List.mem_filter.mpr ⟨List.mem_filter.mpr ⟨hm, ?_⟩, ?_⟩
      · simp [hp]
      · have h := hok m hm hp
        simp [h.1, h.2]
  have hnil : (meetings.filter
      fun m => !(watch_cycle agent processed meetings).1.contains m.event_id) = [] := by
    rw [List.filter_eq_nil_iff]
    intro m hm
    simp [hall m hm]
  rw [watch_cycle_spec agent (watch_cycle agent processed meetings).1 meetings]
  simp only [hnil]
  simp

/-- A segment returned by the inner segment loop has length greater than 2. -/
theorem find_in_parts_some_length :
    ∀ (parts : List String) (c : String), find_in_parts parts = some c → 2 < c.length := by
  intro parts
  induction parts with
  | nil => intro c h; simp [find_in_parts] at h
  | cons p rest ih =>
    intro c h
    rw [find_in_parts, List.findSome?_cons] at h
    by_cases hcond : (!py_contains (py_lower (clean_part p)) "talipot" &&
        !py_contains (py_lower (clean_part p)) "sago" && decide (2 < (clean_part p).length)) = true
    · simp only [hcond, if_true] at h
      obtain rfl : clean_part p = c := by simpa using h
      have := (Bool.and_elim_right hcond)
      simpa using this
    · simp only [Bool.not_eq_true] at hcond
      simp only [hcond, Bool.false_eq_true, if_false] at h
      exact ih c (by rw [find_in_parts]; exact h)

/-- The separator loop of the source equals the explicitly recursive
fall-through scan used to state the amended claim. -/
theorem findSome_sep_eq_scan (title : String) :
    ∀ (seps : List String),
      (seps.findSome? fun sep =>
        let parts := py_split title sep
        if 2 ≤ parts.length then find_in_parts parts else none) = scan_separators title seps := by
  intro seps
  induction seps with
  | nil => rfl
  | cons sep rest ih =>
    rw [List.findSome?_cons]
    simp only [scan_separators]
    by_cases hlen : 2 ≤ (py_split title sep).length
    · simp only [hlen, if_true]
      cases hfp : find_in_parts (py_split title sep) with
      | none => simpa [hfp] using ih
      | some c => simp [hfp]
    · simp only [hlen, if_false]
      simpa using ih

/-- `sep_scan` equals the fall-through scan on the fixed separator list. -/
theorem sep_scan_eq_scan (title : String) :
    sep_scan title = scan_separators title title_separators :=
  findSome_sep_eq_scan title title_separators

/-- If a separator does not occur in the title, its split has fewer than two
parts. -/
theorem py_contains_false_split {s pat : String} (h : py_contains s pat = false) :
    ¬ 2 ≤ (py_split s pat).length := by
  intro hlen
  cases hp : py_split s pat with
  | nil => rw [hp] at hlen; simp at hlen
  | cons a tl =>
    cases tl with
    | nil => rw [hp] at hlen; simp at hlen
    | cons b tl2 =>
      rw [py_contains, hp] at h
      simp at h

/-- A title containing none of the separators makes the whole scan fail. -/
theorem scan_separators_none (title : String) :
    ∀ (seps : List String), (∀ sep ∈ seps, py_contains title sep = false) →
      scan_separators title seps = none := by
  intro seps
  induction seps with
  | nil => intro _; rfl
  | cons sep rest ih =>
    intro h
    rw [scan_separators]
    have hlen := py_contains_false_split (h sep (by simp))
    simp only [hlen, if_false]
    exact ih fun s hs => h s (by simp [hs])

/-- `py_capitalize` of a non-empty string is non-empty. -/
theorem py_capitalize_ne_empty {s : String} (h : s ≠ "") : py_capitalize s ≠ "" := by
  cases s with
  | mk data =>
    cases data with
    | nil => simp at h
    | cons c rest =>
      rw [py_capitalize]
      simp [String.ext_iff]

/-- A target returned by the separator scan has length greater than 2. -/
theorem scan_separators_some_length (title : String) :
    ∀ (seps : List String) (c : String), scan_separators title seps = some c → 2 < c.length := by
  intro seps
  induction seps with
  | nil => intro c h; simp [scan_separators] at h
  | cons sep rest ih =>
    intro c h
    rw [scan_separators] at h
    by_cases hlen : 2 ≤ (py_split title sep).length
    · simp only [hlen, if_true] at h
      cases hfp : find_in_parts (py_split title sep) with
      | none => rw [hfp] at h; exact ih c h
      | some d =>
        rw [hfp] at h
        obtain rfl : d = c := by simpa using h
        exact find_in_parts_some_length _ _ hfp
    · simp only [hlen, if_false] at h
      exact ih c h

/-! ### Claim theorems -/

/-- **C5** (amended).  `resolve` returns a non-empty string whenever the
participant list is empty and the title is non-empty, or the participant
list is non-empty and the first participant's email yields a non-empty
domain segment (the part after the last "@" and before the first ".");
and for the title "Talipot x Sequoia — Q1 Review" it returns "Sequoia" for
any participant list.  (The original claim's weaker proviso — email
non-empty and containing "@" — does not suffice; see the counterexample.) -/
theorem derive_research_target_nonempty (eid title : String) (mps ps : List Participant)
    (h : (ps = [] ∧ title ≠ "") ∨
      ∃ p rest, ps = p :: rest ∧
        ((py_split ((py_split p.email "@").getLastD "") ".").headD "") ≠ "") :
    derive_research_target ⟨eid, title, mps⟩ ps ≠ ""
    ∧ ∀ (qs mps2 : List Participant) (eid2 : String),
      derive_research_target ⟨eid2, "Talipot x Sequoia — Q1 Review", mps2⟩ qs = "Sequoia" := by
  constructor
  · cases hscan : sep_scan title with
    | some c =>
      have hlen : 2 < c.length :=
        scan_separators_some_length title title_separators c
          (by rw [← sep_scan_eq_scan]; exact hscan)
      have hres : derive_research_target ⟨eid, title, mps⟩ ps = c := by
        simp [derive_research_target, hscan]
      rw [hres]
      intro hc
      rw [hc] at hlen
      simp at hlen
    | none =>
      rcases h with ⟨rfl, ht⟩ | ⟨p, rest, rfl, hd⟩
      · simpa [derive_research_target, hscan] using ht
      · have hres : derive_research_target ⟨eid, title, mps⟩ (p :: rest) =
            py_capitalize ((py_split ((py_split p.email "@").getLastD "") ".").headD "") := by
          simp [derive_research_target, hscan]
        rw [hres]
        exact py_capitalize_ne_empty hd
  · intro qs mps2 eid2
    rfl

/-- **C5** counterexample.  The participant list `[{email:"a@"}]` is
non-empty and its email is non-empty and contains "@", yet `resolve` of the
empty title and that list returns the empty string: the claim's proviso is
too weak. -/
theorem derive_research_target_nonempty_cex :
    ((⟨"a@", "Al", "accepted"⟩ : Participant).email ≠ ""
      ∧ py_contains (Participant.email ⟨"a@", "Al", "accepted"⟩) "@" = true
      ∧ ([⟨"a@", "Al", "accepted"⟩] : List Participant) ≠ [])
    ∧ derive_research_target ⟨"e1", "", []⟩ [⟨"a@", "Al", "accepted"⟩] = "" :=
  ⟨⟨by decide, by decide, by decide⟩, rfl⟩

/-- **C6** counterexample.  For the title "Talipot x Sago — Acme" the first
separator " x " produces two segments, none of which qualifies; the claimed
algorithm would therefore fall back to the email domain ("Foo"), but the
source continues with later separators and returns "Acme" via " — ". -/
theorem resolve_claimed_cex :
    derive_research_target ⟨"e1", "Talipot x Sago — Acme", []⟩
        [⟨"bob@foo.com", "Bob", "accepted"⟩] = "Acme"
    ∧ resolve_claimed "Talipot x Sago — Acme" [⟨"bob@foo.com", "Bob", "accepted"⟩] = "Foo"
    ∧ ¬ (derive_research_target ⟨"e1", "Talipot x Sago — Acme", []⟩
          [⟨"bob@foo.com", "Bob", "accepted"⟩]
        = resolve_claimed "Talipot x Sago — Acme" [⟨"bob@foo.com", "Bob", "accepted"⟩]) :=
  ⟨rfl, rfl, by decide⟩

/-- **C6** (amended).  `resolve` tries each separator of the fixed ordered
list in order; every separator that produces two or more segments has its
segments examined (first qualifying cleaned segment returned), and when no
segment of that split qualifies the scan continues with the LATER
separators; only when no separator's split yields a qualifying segment does
resolution fall back to the participant email-domain rule (or the raw
title). -/
theorem derive_research_target_amended (eid title : String) (mps ps : List Participant) :
    derive_research_target ⟨eid, title, mps⟩ ps = resolve_amended title ps := by
  cases hscan : scan_separators title title_separators with
  | some c => simp [derive_research_target, resolve_amended, sep_scan_eq_scan, hscan]
  | none =>
    cases ps with
    | nil => simp [derive_research_target, resolve_amended, sep_scan_eq_scan, hscan]
    | cons p rest => simp [derive_research_target, resolve_amended, sep_scan_eq_scan, hscan]

/-- **C7**.  For a title containing none of the recognized separators and a
participant list whose first participant has email "alex@sequoiacap.com",
`resolve` returns "Sequoiacap": the email domain truncated at its first "."
and capitalized. -/
theorem derive_research_target_email_fallback (eid : String) (mps rest : List Participant)
    (title pname presp : String)
    (h : ∀ sep ∈ title_separators, py_contains title sep = false) :
    derive_research_target ⟨eid, title, mps⟩ (⟨"alex@sequoiacap.com", pname, presp⟩ :: rest)
      = "Sequoiacap" := by
  have hscan : sep_scan title = none := by
    rw [sep_scan_eq_scan]
    exact scan_separators_none title title_separators h
  simp [derive_research_target, hscan]
  rfl

/-- **C7** witness: the separator-free title "Board Sync". -/
theorem derive_research_target_email_fallback_witness :
    (∀ sep ∈ title_separators, py_contains "Board Sync" sep = false)
    ∧ derive_research_target ⟨"e1", "Board Sync", []⟩
        [⟨"alex@sequoiacap.com", "Alex", "accepted"⟩] = "Sequoiacap" :=
  ⟨by decide,
   derive_research_target_email_fallback "e1" [] [] "Board Sync" "Alex" "accepted" (by decide)⟩

/-- **C5** witness: a separator-free non-degenerate instance of each part. -/
theorem derive_research_target_nonempty_witness :
    derive_research_target ⟨"e1", "Strategy Review", []⟩
        [⟨"alex@sequoiacap.com", "Alex", "accepted"⟩] ≠ ""
    ∧ derive_research_target ⟨"e1", "Talipot x Sequoia — Q1 Review", []⟩ [] = "Sequoia" := by
  have h := derive_research_target_nonempty "e1" "Strategy Review" []
    [⟨"alex@sequoiacap.com", "Alex", "accepted"⟩]
    (Or.inr ⟨⟨"alex@sequoiacap.com", "Alex", "accepted"⟩, [], rfl, by decide⟩)
  exact ⟨h.1, h.2 [] [] "e1"⟩

/-- **C1**.  When the agent invocation for meeting `m` raises, the exception
is caught at the per-meeting boundary: the batch's dispatch trace still
contains every later meeting's dispatch exactly as it would occur (the trace
splits around `m`), the processed set is exactly that of the surrounding
meetings, and `m`'s `event_id` is absent from the returned processed set. -/
theorem process_meetings_failure_isolation (agent : Agent) (xs ys : List Meeting)
    (m : Meeting) (err : String)
    (hfail : agent m = .error err)
    (hpass : passes_filters m = true)
    (hfresh : ∀ m' ∈ xs ++ ys, m'.event_id ≠ m.event_id) :
    (process_meetings agent (xs ++ m :: ys)).2 =
      (process_meetings agent xs).2 ++ m.event_id :: (process_meetings agent ys).2
    ∧ (process_meetings agent (xs ++ m :: ys)).1 =
      (process_meetings agent xs).1 ++ (process_meetings agent ys).1
    ∧ m.event_id ∉ (process_meetings agent (xs ++ m :: ys)).1 := by
  have hok : agent_ok agent m = false := by simp [agent_ok, hfail]
  refine ⟨?_, ?_, ?_⟩
  · simp [process_meetings_spec, List.filter_append, List.filter_cons, hpass]
  · simp [process_meetings_spec, List.filter_append, List.filter_cons, hpass, hok]
  · intro hmem
    rw [process_meetings_spec] at hmem
    simp only [List.mem_map, List.mem_filter, List.mem_append, List.mem_cons] at hmem
    obtain ⟨m', ⟨hm'src, hpred⟩, hid⟩ := hmem
    rcases hm'src with hxs | rfl | hys
    · exact hfresh m' (List.mem_append_left _ hxs) hid
    · simp [hok] at hpred
    · exact hfresh m' (List.mem_append_right _ hys) hid

/-- **C1** witness: a three-meeting batch whose middle meeting's agent
invocation raises. -/
theorem process_meetings_failure_isolation_witness :
    (failing_agent mtg2 = .error "boom"
      ∧ passes_filters mtg2 = true
      ∧ ∀ m' ∈ [mtg1] ++ [mtg3], m'.event_id ≠ mtg2.event_id)
    ∧ ((process_meetings failing_agent ([mtg1] ++ mtg2 :: [mtg3])).2 =
        (process_meetings failing_agent [mtg1]).2 ++ mtg2.event_id ::
          (process_meetings failing_agent [mtg3]).2
      ∧ (process_meetings failing_agent ([mtg1] ++ mtg2 :: [mtg3])).1 =
        (process_meetings failing_agent [mtg1]).1 ++ (process_meetings failing_agent [mtg3]).1
      ∧ mtg2.event_id ∉ (process_meetings failing_agent ([mtg1] ++ mtg2 :: [mtg3])).1) :=
  ⟨⟨rfl, by decide, by decide⟩,
   process_meetings_failure_isolation failing_agent [mtg1] [mtg3] mtg2 "boom" rfl
     (by decide) (by decide)⟩

/-- **C2**.  An `event_id` present in `processed_ids` is never dispatched in
any later cycle, however many scans re-report it; and when every meeting of
a scan either was already processed or completes successfully, the next
cycle on the identical scan counts nothing new and dispatches nothing. -/
theorem run_watch_dedup (agent : Agent) (processed : List String) (eid : String)
    (scans : List (List Meeting)) (meetings : List Meeting)
    (hmem : eid ∈ processed)
    (hok : ∀ m ∈ meetings, m.event_id ∉ processed →
      passes_filters m = true ∧ agent_ok agent m = true) :
    (∀ log ∈ (run_watch agent processed scans).2, eid ∉ log.newIds ∧ eid ∉ log.dispatched)
    ∧ (watch_cycle agent (watch_cycle agent processed meetings).1 meetings).2 = ⟨[], []⟩ :=
  ⟨fun log hlog => run_watch_no_redispatch agent eid scans processed hmem log hlog,
   second_cycle_no_dispatch agent processed meetings hok⟩

/-- **C2** witness: a processed id against a re-reporting scan, and an
identical two-cycle scan with an always-successful agent. -/
theorem run_watch_dedup_witness :
    (("e0" : String) ∈ ["e0"]
      ∧ ∀ m ∈ [mtg1, mtg3], m.event_id ∉ (["e0"] : List String) →
          passes_filters m = true ∧ agent_ok ok_agent m = true)
    ∧ (∀ log ∈ (run_watch ok_agent ["e0"] [[mtg1]]).2, "e0" ∉ log.newIds ∧ "e0" ∉ log.dispatched)
    ∧ (watch_cycle ok_agent (watch_cycle ok_agent ["e0"] [mtg1, mtg3]).1 [mtg1, mtg3]).2 =
        ⟨[], []⟩ := by
  have h := run_watch_dedup ok_agent ["e0"] "e0" [[mtg1]] [mtg1, mtg3] (by decide) (by decide)
  exact ⟨⟨by decide, by decide⟩, h.1, h.2⟩

/-- Inductive core for C10: a meeting failing the participant filters never
enters the processed set and is counted as new on every cycle whose scan
reports it. -/
theorem skipped_meeting_reoffered_aux (agent : Agent) (m : Meeting)
    (hskip : passes_filters m = false) :
    ∀ (scans : List (List Meeting)) (processed : List String),
      m.event_id ∉ processed →
      (∀ scan ∈ scans, m ∈ scan) →
      (∀ scan ∈ scans, ∀ m' ∈ scan, m'.event_id = m.event_id → m' = m) →
      m.event_id ∉ (run_watch agent processed scans).1
      ∧ ∀ log ∈ (run_watch agent processed scans).2, m.event_id ∈ log.newIds := by
  intro scans
  induction scans with
  | nil =>
    intro processed hnot _ _
    exact ⟨by simpa [run_watch] using hnot, by simp [run_watch]⟩
  | cons scan later ih =>
    intro processed hnot hmem hfresh
    have hnot' : m.event_id ∉ (watch_cycle agent processed scan).1 := by
      rw [watch_cycle_spec]
      intro hin
      rcases List.mem_append.mp hin with hl | hr
      · exact hnot hl
      · simp only [List.mem_map, List.mem_filter] at hr
        obtain ⟨m', ⟨⟨hms, _⟩, hpred⟩, hid⟩ := hr
        have hm'm : m' = m := hfresh scan (by simp) m' hms hid
        rw [hm'm] at hpred
        simp [hskip] at hpred
    have ihr := ih (watch_cycle agent processed scan).1 hnot'
      (fun s hs => hmem s (by simp [hs])) (fun s hs => hfresh s (by simp [hs]))
    constructor
    · simpa [run_watch] using ihr.1
    · intro log hlog
      simp only [run_watch, List.mem_cons] at hlog
      rcases hlog with rfl | hlog
      · simp only [watch_cycle_spec]
        refine List.mem_map.mpr ⟨m, List.mem_filter.mpr ⟨hmem scan (by simp), ?_⟩, rfl⟩
        simp [hnot]
      · exact ihr.2 log hlog

/-- **C10**.  A meeting with no talipot.com participants or no external
participants is never added to the processed set, so in watch mode its
`event_id` is counted as new on every scan cycle that reports it. -/
theorem skipped_meeting_reoffered (agent : Agent) (processed : List String)
    (scans : List (List Meeting)) (m : Meeting)
    (hskip : (get_external_participants m).1 = [] ∨ (get_external_participants m).2 = [])
    (hnot : m.event_id ∉ processed)
    (hmem : ∀ scan ∈ scans, m ∈ scan)
    (hfresh : ∀ scan ∈ scans, ∀ m' ∈ scan, m'.event_id = m.event_id → m' = m) :
    m.event_id ∉ (run_watch agent processed scans).1
    ∧ ∀ log ∈ (run_watch agent processed scans).2, m.event_id ∈ log.newIds := by
  have hb : passes_filters m = false := by
    rcases hskip with h | h <;> simp [passes_filters, h]
  exact skipped_meeting_reoffered_aux agent m hb scans processed hnot hmem hfresh

/-- **C10** witness: a meeting with no talipot.com participants, re-reported
on two consecutive scans. -/
theorem skipped_meeting_reoffered_witness :
    ((get_external_participants mtgNoTal).1 = []
      ∧ mtgNoTal.event_id ∉ ([] : List String))
    ∧ mtgNoTal.event_id ∉ (run_watch ok_agent [] [[mtgNoTal], [mtgNoTal]]).1
    ∧ ∀ log ∈ (run_watch ok_agent [] [[mtgNoTal], [mtgNoTal]]).2,
        mtgNoTal.event_id ∈ log.newIds := by
  have h := skipped_meeting_reoffered ok_agent [] [[mtgNoTal], [mtgNoTal]] mtgNoTal
    (Or.inl (by decide)) (by decide) (by decide) (by decide)
  exact ⟨⟨by decide, by decide⟩, h.1, h.2⟩

/-- **C3**.  Every operation, on a raising provider, returns a
`TavilyResult` instead of propagating: a recognized exception (the caught
tuple) is classified by `_handle_error` into an error result with
`success=false`, empty `data` and a present `error`; any unrecognized
exception yields exactly `{success:false, data:"", error:"Unexpected error
in <operation>: <message>"}`.  (Totality of the operations — they never
raise — is the totality of the embedded functions into `TavilyResult`.) -/
theorem toolinvoker_error_contract (tb : TavilyToolbox) (query depth : String)
    (max_results : Nat) (incl excl : Option (List String))
    (urls : List String) (fq : Option String) (url instr : String)
    (md mb mp : Nat) (e : TavilyExc) :
    (tb.web_search query depth max_results incl excl (.error e) =
      if e.recognized then handle_error "web_search" e
      else spec_unexpected_result "web_search" e.msg)
    ∧ (tb.deep_research query md mb (.error e) =
      if e.recognized then handle_error "deep_research" e
      else spec_unexpected_result "deep_research" e.msg)
    ∧ (∀ provider : List String → Except TavilyExc ExtractResponse,
        urls ≠ [] → provider (urls.take 10) = .error e →
        tb.extract_content urls fq provider =
          if e.recognized then handle_error "extract_content" e
          else spec_unexpected_result "extract_content" e.msg)
    ∧ (tb.map_site url md (.error e) =
      if e.recognized then handle_error "map_site" e
      else spec_unexpected_result "map_site" e.msg)
    ∧ (tb.crawl_site url instr mp (.error e) =
      if e.recognized then handle_error "crawl_site" e
      else spec_unexpected_result "crawl_site" e.msg)
    ∧ (∀ method : String, (handle_error method e).success = false
        ∧ (handle_error method e).data = "" ∧ (handle_error method e).error ≠ none) := by
  refine ⟨?_, ?_, ?_, ?_, ?_, ?_⟩
  · cases e <;> rfl
  · cases e <;> rfl
  · intro provider hne hprov
    cases urls with
    | nil => exact absurd rfl hne
    | cons u us =>
      rw [TavilyToolbox.extract_content]
      simp only [List.isEmpty_cons, Bool.false_eq_true, if_false]
      rw [hprov]
      cases e <;> rfl
  · cases e <;> rfl
  · cases e <;> rfl
  · intro method
    cases e <;> simp [handle_error]

/-- **C3** witness: an unrecognized provider exception during extraction is
converted into exactly the claimed unexpected-error result. -/
theorem toolinvoker_error_contract_witness :
    tbW.extract_content ["https://a.example"] none
        (fun _ => .error (.other "socket timeout")) =
      spec_unexpected_result "extract_content" "socket timeout" :=
  ((toolinvoker_error_contract tbW "q" "advanced" 5 none none
      ["https://a.example"] none "https://a.example" "find team" 3 3 10
      (.other "socket timeout")).2.2.1
      (fun _ => .error (.other "socket timeout")) (by decide) rfl).trans rfl

/-- **C4**.  Every `TavilyResult` produced by any of the five operations
satisfies the result invariant: `success=true` implies `error` is absent,
`success=false` implies `data` is empty, and no result has both
`success=true` and a present `error`. -/
theorem toolresult_invariant (tb : TavilyToolbox) (query depth : String)
    (max_results : Nat) (incl excl : Option (List String))
    (urls : List String) (fq : Option String) (url instr : String) (md mb mp : Nat)
    (p1 : Except TavilyExc SearchResponse) (p2 : Except TavilyExc ResearchResponse)
    (p3 : List String → Except TavilyExc ExtractResponse)
    (p4 : Except TavilyExc MapPages) (p5 : Except TavilyExc CrawlResponse) :
    ∀ r ∈ [tb.web_search query depth max_results incl excl p1,
           tb.deep_research query md mb p2,
           tb.extract_content urls fq p3,
           tb.map_site url md p4,
           tb.crawl_site url instr mp p5],
      (r.success = true → r.error = none)
      ∧ (r.success = false → r.data = "")
      ∧ ¬ (r.success = true ∧ r.error ≠ none) := by
  intro r hr
  simp only [List.mem_cons, List.not_mem_nil, or_false] at hr
  rcases hr with rfl | rfl | rfl | rfl | rfl
  · cases p1 with
    | ok resp => simp [TavilyToolbox.web_search]
    | error e => cases e <;> simp [TavilyToolbox.web_search, handle_error]
  · cases p2 with
    | ok resp => simp [TavilyToolbox.deep_research]
    | error e => cases e <;> simp [TavilyToolbox.deep_research, handle_error]
  · by_cases hu : urls.isEmpty
    · simp [TavilyToolbox.extract_content, hu]
    · cases hp : p3 (urls.take 10) with
      | ok resp => simp [TavilyToolbox.extract_content, hu, hp]
      | error e => cases e <;> simp [TavilyToolbox.extract_content, hu, hp, handle_error]
  · cases p4 with
    | ok resp => simp [TavilyToolbox.map_site]
    | error e => cases e <;> simp [TavilyToolbox.map_site, handle_error]
  · cases p5 with
    | ok resp => simp [TavilyToolbox.crawl_site]
    | error e => cases e <;> simp [TavilyToolbox.crawl_site, handle_error]

/-- **C4** witness: a successful search result carries no error, and a
failed mapping result carries empty data. -/
theorem toolresult_invariant_witness :
    (tbW.web_search "q" "advanced" 5 none none (Except.ok ⟨none, []⟩)).error = none
    ∧ (tbW.map_site "https://a.example" 2 (.error (.other "x"))).data = "" := by
  have h := toolresult_invariant tbW "q" "advanced" 5 none none [] none
    "https://a.example" "i" 2 3 10 (.ok ⟨none, []⟩) (.ok (.str "r")) (fun _ => .ok ⟨[]⟩)
    (.error (.other "x")) (.ok (.nonDict "c"))
  exact ⟨(h _ (by simp)).1 rfl, (h _ (by simp)).2.1 rfl⟩

/-- **C8**.  On the empty URL list, `extract_content` fails immediately with
the descriptive error, uniformly in the provider — the result does not
depend on the provider function, so no provider call is issued. -/
theorem extract_content_empty_urls (tb : TavilyToolbox) (fq : Option String)
    (provider : List String → Except TavilyExc ExtractResponse) :
    tb.extract_content [] fq provider =
      ⟨false, "", some "No URLs provided for extraction"⟩ := rfl

/-- **C9**.  With no `api_key` argument and the `TAVILY_API_KEY`
environment variable unset (toolbox global still `None`), every
module-level tool function propagates the `ValueError` raised by the lazy
toolbox construction (modelled as `Except.error` with the constructor's
message) instead of returning an error string or a `{success:false}`
result. -/
theorem module_tools_raise_valueerror (query depth : String) (max_results : Nat)
    (p1 : Except TavilyExc SearchResponse) (p2 : Except TavilyExc ResearchResponse)
    (urls : List String) (fq : Option String)
    (p3 : List String → Except TavilyExc ExtractResponse)
    (url instr : String) (p4 : Except TavilyExc MapPages)
    (p5 : Except TavilyExc CrawlResponse) :
    tavily_web_search none none query depth max_results p1 = .error api_key_error_msg
    ∧ tavily_deep_research none none query p2 = .error api_key_error_msg
    ∧ tavily_extract_content none none urls fq p3 = .error api_key_error_msg
    ∧ tavily_map_site none none url p4 = .error api_key_error_msg
    ∧ tavily_crawl_site none none url instr p5 = .error api_key_error_msg :=
  ⟨rfl, rfl, rfl, rfl, rfl⟩

end Sago
